import Mathlib

/-!
Shallow Lean embedding of the Commute_Grapher sampling pipeline
(`src/routes_fetch_travel_time.py`) and its read path (`src/api/app.py`),
with theorems checking the natural-language specification against the code.

Python strings are modelled as Lean `String`/`List Char`; SQLite tables as
Lean lists of row structures; network calls as explicit oracle functions;
exceptions as `Option`/`Except`.  `float` values that the code merely parses
and stores are modelled as exact rationals (`Rat`).
-/

namespace Commute

/-! ### Python numeric/string primitives used by the extractor -/

/-- Value of a list of decimal digit characters, most significant first
(the semantics of Python `int` on an all-digit string). -/
def digitsVal (cs : List Char) : Nat :=
  cs.foldl (fun a c => a * 10 + (c.toNat - 48)) 0

/-- Python `int(s)` on a string already stripped of surrounding whitespace
and sign: succeeds iff the string is nonempty and all digits. -/
def digitsToNat (cs : List Char) : Option Nat :=
  if cs ≠ [] ∧ cs.all (·.isDigit) then some (digitsVal cs) else none

/-- Strip whitespace from both ends (Python `int`/`float` tolerate it). -/
def pyStripWs (cs : List Char) : List Char :=
  ((cs.dropWhile (·.isWhitespace)).reverse.dropWhile (·.isWhitespace)).reverse

/-- Python `int(s)` on the character list of `s`: optional surrounding
whitespace, optional sign, then a nonempty run of decimal digits; anything
else (commas included) raises `ValueError`, modelled as `none`. -/
def pyIntCore (cs : List Char) : Option Int :=
  match pyStripWs cs with
  | [] => none
  | c :: rest =>
    if c = '-' then (digitsToNat rest).map (fun n => -(n : Int))
    else if c = '+' then (digitsToNat rest).map (fun n => (n : Int))
    else (digitsToNat (c :: rest)).map (fun n => (n : Int))

/-- Python `int(s)`. -/
def pyInt (s : String) : Option Int := pyIntCore s.data

/-- Decimal part of Python `float` parsing: `<digits>`, `<digits>.<digits>`,
`<digits>.` or `.<digits>` (at least one digit overall); the exact rational
value is kept.  Exponent and special forms never occur in the provider
strings this code parses. -/
def pyFloatCore (cs : List Char) : Option Rat :=
  let ip := cs.takeWhile (· ≠ '.')
  let rest := cs.dropWhile (· ≠ '.')
  match rest with
  | [] =>
    if cs ≠ [] ∧ cs.all (·.isDigit) then some ((digitsVal cs : Nat) : Rat) else none
  | _ :: frac =>
    if (ip ≠ [] ∨ frac ≠ []) ∧ ip.all (·.isDigit) ∧ frac.all (·.isDigit) then
      some (((digitsVal ip : Nat) : Rat) + ((digitsVal frac : Nat) : Rat) / ((10 : Rat) ^ frac.length))
    else none

/-- Python `float(s)` restricted to the plain decimal forms above. -/
def pyFloat (s : String) : Option Rat :=
  match pyStripWs s.data with
  | [] => none
  | c :: rest =>
    if c = '-' then (pyFloatCore rest).map (fun q => -q)
    else if c = '+' then pyFloatCore rest
    else pyFloatCore (c :: rest)

/-- The ten decimal digit characters (used to state the parsing claims
about "strings of the form `<integer>s` / `<integer> min`"). -/
def digitChars : List Char :=
  ['0', '1', '2', '3', '4', '5', '6', '7', '8', '9']

/-- Helper for `pySplitWs`: split a character list on runs of whitespace,
`acc` holding the current token reversed. -/
def splitWsAux : List Char → List Char → List String
  | [], acc => if acc = [] then [] else [String.mk acc.reverse]
  | c :: cs, acc =>
    if c.isWhitespace then
      if acc = [] then splitWsAux cs []
      else String.mk acc.reverse :: splitWsAux cs []
    else splitWsAux cs (c :: acc)

/-- Python `s.split()` (no argument): split on whitespace runs, no empty
tokens. -/
def pySplitWs (s : String) : List String :=
  splitWsAux s.data []

/-- Python `s.rstrip("s")`: drop ALL trailing `'s'` characters. -/
def pyRstripS (s : String) : String :=
  String.mk (s.data.reverse.dropWhile (· = 's')).reverse

/-- Python `s.replace(",", "")`: remove every comma. -/
def stripCommas (s : String) : String :=
  String.mk (s.data.filter (· ≠ ','))

/-! ### RouteExtractor (`_extract_route_info`) -/

/-- One raw candidate route as consumed by `_extract_route_info`, holding
exactly the JSON fields the function reads (a well-shaped provider route:
every read field present, `distanceMeters` an integer). -/
structure RawRoute where
  description : String
  distanceMeters : Int
  milesText : String
  duration : String
  staticDurationText : String
  durationText : String
deriving DecidableEq, Repr

/-- The typed metrics record produced from one raw route. -/
structure SampleMetrics where
  description : String
  meters : Int
  miles : Rat
  duration_seconds : Int
  duration_static : Int
  duration_minutes : Int
deriving DecidableEq, Repr

/-- `_to_int_minutes(s)`: `int(s.split()[0].replace(",", ""))`;
`none` models the IndexError/ValueError paths. -/
def toIntMinutes (s : String) : Option Int :=
  (pySplitWs s).head?.bind (fun t => pyInt (stripCommas t))

/-- `float(miles_text.split()[0].replace(",", ""))`. -/
def parseMiles (s : String) : Option Rat :=
  (pySplitWs s).head?.bind (fun t => pyFloat (stripCommas t))

/-- `int(duration_seconds_str.rstrip("s"))` — note: no comma removal here. -/
def parseRawSeconds (s : String) : Option Int :=
  pyInt (pyRstripS s)

/-- `_extract_route_info(route)`: pure normalization of one raw route;
`none` models the exception paths (a field failing to parse aborts the
run). -/
def extractRouteInfo (r : RawRoute) : Option SampleMetrics :=
  match parseMiles r.milesText, parseRawSeconds r.duration,
      toIntMinutes r.staticDurationText, toIntMinutes r.durationText with
  | some mi, some ds, some st, some mn =>
    some { description := r.description, meters := r.distanceMeters, miles := mi,
           duration_seconds := ds, duration_static := st, duration_minutes := mn }
  | _, _, _, _ => none

/-! ### DirectionSelector (`_in_window`, `choose_direction`)

Local wall-clock time is modelled as seconds since local midnight
(`datetime.time` comparison is lexicographic on (hour, minute, second),
i.e. numeric comparison of the second count). -/

/-- Seconds since midnight for a wall-clock `h:m`. -/
def secondsOfDay (h m : Nat) : Nat := h * 3600 + m * 60

/-- `_in_window(now, start, end)`: `start <= t <= end`, inclusive both
ends. -/
def inWindow (t s e : Nat) : Bool := decide (s ≤ t) && decide (t ≤ e)

/-- `choose_direction()`.  `override` is the processed environment value
`os.getenv("DIRECTION", "").upper().strip()` (so `""` when no override is
configured); `t` the current local time in seconds since midnight.
Returns `some (src, dst)` or `none` for "skip". -/
def chooseDirection (override : String) (t : Nat) : Option (String × String) :=
  if override = "H2W" then some ("HOME", "WORK")
  else if override = "W2H" then some ("WORK", "HOME")
  else if inWindow t (secondsOfDay 5 30) (secondsOfDay 10 30) then some ("HOME", "WORK")
  else if inWindow t (secondsOfDay 10 40) (secondsOfDay 18 30) then some ("WORK", "HOME")
  else none

/-! ### LocationResolver (`fetch_coords`) over the `locations` table -/

/-- One row of the `locations` table (`lat`/`lon` nullable until
resolved). -/
structure LocRow where
  label : String
  address : String
  lat : Option Rat
  lon : Option Rat
deriving DecidableEq, Repr

/-- The geocoding provider's reply for one address: HTTP success flag, the
JSON `status` field, and the `results` list reduced to the coordinates the
code reads (`results[0]["geometry"]["location"]`). -/
structure GeoResponse where
  httpOk : Bool
  status : String
  results : List (Rat × Rat)
deriving DecidableEq, Repr

/-- `SELECT lat, lon FROM locations WHERE label=?` + `fetchone()`:
first row with the given label (`locations.label` is UNIQUE, so under the
schema invariant there is at most one). -/
def lookupLoc (db : List LocRow) (l : String) : Option LocRow :=
  db.find? (fun r => r.label == l)

/-- The cache-hit test of `fetch_coords`: a stored row whose `lat` and
`lon` are both non-NULL. -/
def cacheHit (db : List LocRow) (l : String) : Option (Rat × Rat) :=
  match lookupLoc db l with
  | some row =>
    match row.lat, row.lon with
    | some la, some lo => some (la, lo)
    | _, _ => none
  | none => none

/-- `INSERT INTO locations ... ON CONFLICT(label) DO UPDATE SET
address=excluded.address, lat=excluded.lat, lon=excluded.lon`:
if a row with this label exists it is updated in place, otherwise a new
row is appended. -/
def upsertLoc (db : List LocRow) (label address : String) (la lo : Rat) :
    List LocRow :=
  if db.any (fun r => r.label == label) then
    db.map (fun r =>
      if r.label == label then
        { label := r.label, address := address, lat := some la, lon := some lo }
      else r)
  else db ++ [{ label := label, address := address, lat := some la, lon := some lo }]

/-- The stored labels, in table order (the `locations.label UNIQUE`
constraint says this list has no duplicates). -/
def locLabels (db : List LocRow) : List String := db.map (·.label)

/-- Successful result of `fetch_coords`: the coordinates returned, the
`locations` table afterwards, and how many geocoding provider calls were
made. -/
structure FetchCoordsOk where
  coords : Rat × Rat
  db : List LocRow
  providerCalls : Nat
deriving DecidableEq, Repr

/-- `fetch_coords(label, address)`: cache check, then geocode + upsert on a
miss.  `geo` is the provider oracle (address ↦ reply); errors model
`raise_for_status` and the `Geocode failed` RuntimeError. -/
def fetchCoords (geo : String → GeoResponse) (db : List LocRow)
    (label address : String) : Except String FetchCoordsOk :=
  match cacheHit db label with
  | some c => .ok { coords := c, db := db, providerCalls := 0 }
  | none =>
    let resp := geo address
    if resp.httpOk = false then .error "HTTPError"
    else if resp.status = "OK" then
      match resp.results with
      | [] => .error "Geocode failed"
      | (la, lo) :: _ =>
        .ok { coords := (la, lo), db := upsertLoc db label address la lo,
              providerCalls := 1 }
    else .error "Geocode failed"

/-! ### RouteClient (`fetch_directions`) -/

/-- The routing provider's reply to `requests.post`: HTTP success flag and
status code, the response body (opaque text standing for `r.json()` /
`r.text`), and the parsed `routes` array. -/
structure RoutesResponse where
  ok : Bool
  statusCode : Nat
  body : String
  routes : List RawRoute
deriving DecidableEq, Repr

/-- Failure modes of `fetch_directions`: `upstream` is the RuntimeError
raised for a non-OK HTTP reply (carrying the status code and body) or for
an empty `routes` array (carrying the body; the status is `none` because
that message interpolates only the parsed data); `parse` is a
ValueError/TypeError escaping from `_extract_route_info`. -/
inductive FetchError where
  | upstream (statusCode : Option Nat) (body : String)
  | parse
deriving DecidableEq, Repr

/-- The list comprehension `[_extract_route_info(rt) for rt in routes]`:
extract every route in order; the first exception aborts the whole list. -/
def extractAll : List RawRoute → Option (List SampleMetrics)
  | [] => some []
  | r :: rs =>
    match extractRouteInfo r, extractAll rs with
    | some m, some ms => some (m :: ms)
    | _, _ => none

/-- `fetch_directions(...)`: raise on non-OK HTTP, raise on zero routes,
else extract every route (the first extraction failure aborts). -/
def fetchDirections (resp : RoutesResponse) : Except FetchError (List SampleMetrics) :=
  if resp.ok = false then .error (.upstream (some resp.statusCode) resp.body)
  else if resp.routes = [] then .error (.upstream none resp.body)
  else
    match extractAll resp.routes with
    | some ms => .ok ms
    | none => .error .parse

/-! ### BatchWriter (the tail of `main`) over the `travel_times` table -/

/-- One row of the `travel_times` table.  `ts` is the per-row creation
time (`DATETIME DEFAULT CURRENT_TIMESTAMP`), modelled as seconds since
epoch. -/
structure TTRow where
  ts : Int
  batch_id : String
  batch_ts : String
  origin_label : String
  dest_label : String
  description : String
  meters : Int
  miles : Rat
  duration_seconds : Int
  duration_static : Int
  duration_minutes : Int
deriving DecidableEq, Repr

/-- The row tuples built in `main` from the extracted metrics: one shared
`batch_id`/`batch_ts`/origin/destination for every record; `tsAt i` is the
insert time the database assigns to the `i`-th row. -/
def mkRows (tsAt : Nat → Int) (i : Nat) (bid bts o d : String) :
    List SampleMetrics → List TTRow
  | [] => []
  | m :: ms =>
    { ts := tsAt i, batch_id := bid, batch_ts := bts, origin_label := o,
      dest_label := d, description := m.description, meters := m.meters,
      miles := m.miles, duration_seconds := m.duration_seconds,
      duration_static := m.duration_static,
      duration_minutes := m.duration_minutes } :: mkRows tsAt (i + 1) bid bts o d ms

/-- `cur.executemany(...)` inside the transaction: insert the rows one at
a time; `failAt = some k` means the `k`-th insert (0-based) raises, i.e.
the write fails after `k` of the rows have been inserted.  On error the
partially extended table is discarded by the caller's rollback, so only
`.ok` carries a table. -/
def executemanyTT (db : List TTRow) (rows : List TTRow) (i : Nat)
    (failAt : Option Nat) : Except Unit (List TTRow) :=
  match rows with
  | [] => .ok db
  | r :: rs =>
    if failAt = some i then .error ()
    else executemanyTT (db ++ [r]) rs (i + 1) failAt

/-- The `with con:` transaction around `executemany`: commit the extended
table on success, roll back to the original table on any failure. -/
def commitBatch (db : List TTRow) (rows : List TTRow) (failAt : Option Nat) :
    List TTRow :=
  match executemanyTT db rows 0 failAt with
  | .ok db2 => db2
  | .error _ => db

/-- `SELECT ... WHERE batch_id = ?`: the rows of one batch. -/
def readBatch (db : List TTRow) (bid : String) : List TTRow :=
  db.filter (fun r => r.batch_id == bid)

/-- The tail of `main` after coordinates are resolved: fetch directions,
and only on success build the batch rows and run the insert transaction.
Returns the error (if any) and the `travel_times` table afterwards. -/
def runFetchAndCommit (resp : RoutesResponse) (db : List TTRow)
    (tsAt : Nat → Int) (bid bts o d : String) (failAt : Option Nat) :
    Option FetchError × List TTRow :=
  match fetchDirections resp with
  | .error e => (some e, db)
  | .ok ms => (none, commitBatch db (mkRows tsAt 0 bid bts o d ms) failAt)

/-! ### Read path (`src/api/app.py`: `get_rows`, `data_json`) -/

/-- The WHERE clause of `get_rows`: `origin_label = ? AND dest_label = ?
AND ts >= datetime('now', '-<days> days')`. -/
def rowMatches (origin dest : String) (cutoff : Int) (r : TTRow) : Bool :=
  r.origin_label == origin && r.dest_label == dest && decide (cutoff ≤ r.ts)

/-- `get_rows(direction, days)` over table `db` at current time `now`
(seconds): direction `"H2W"` maps to (home, work), anything else to
(work, home); filter by the WHERE clause and `ORDER BY ts ASC`. -/
def getRows (home work : String) (db : List TTRow) (direction : String)
    (days : Nat) (now : Int) : List TTRow :=
  let origin := if direction = "H2W" then home else work
  let dest := if direction = "H2W" then work else home
  (db.filter (rowMatches origin dest (now - (days : Int) * 86400))).insertionSort
    (fun a b => a.ts ≤ b.ts)

/-- Local time of day (seconds since midnight) of a row timestamp. -/
def timeOfDay (ts : Int) : Int := ts % 86400

/-- The `filter_hours` predicate of `data_json`: keep rows whose
time-of-day lies in [05:00, 19:00], inclusive. -/
def inDayWindow (r : TTRow) : Bool :=
  decide (5 * 3600 ≤ timeOfDay r.ts) && decide (timeOfDay r.ts ≤ 19 * 3600)

/-- Python `rows[-n:]`: for positive `n` the last `n` elements; for
`n = 0` the slice is `rows[0:]`, i.e. the WHOLE list (reachable through
`limit="0"`, since `"0".isdigit()` holds). -/
def takeLast (n : Nat) (l : List TTRow) : List TTRow :=
  if n = 0 then l else l.drop (l.length - n)

/-- `data_json`: `get_rows`, then the optional 05:00–19:00 time-of-day
filter, then the optional `rows[-limit:]`. -/
def dataJson (home work : String) (db : List TTRow) (direction : String)
    (days : Nat) (now : Int) (filterHours : Bool) (limit : Option Nat) :
    List TTRow :=
  let rows := getRows home work db direction days now
  let rows := if filterHours then rows.filter inDayWindow else rows
  match limit with
  | some n => takeLast n rows
  | none => rows

/-- `ORDER BY ts ASC` comparisons are total. -/
instance : IsTotal TTRow (fun a b => a.ts ≤ b.ts) :=
  ⟨fun a b => Int.le_total a.ts b.ts⟩

/-- `ORDER BY ts ASC` comparisons are transitive. -/
instance : IsTrans TTRow (fun a b => a.ts ≤ b.ts) :=
  ⟨fun _ _ _ h1 h2 => le_trans h1 h2⟩

/-! ## Theorems -/

/-! ### Helper lemmas about the Python string primitives -/

/-- Characterwise facts about decimal digits used by the parsers. -/
lemma digitChar_facts {c : Char} (h : c ∈ digitChars) :
    c.isDigit = true ∧ c.isWhitespace = false ∧ c ≠ 's' ∧ c ≠ ',' ∧
      c ≠ '-' ∧ c ≠ '+' := by
  fin_cases h <;> exact ⟨by decide, by decide, by decide, by decide, by decide, by decide⟩

/-- `dropWhile` is the identity when no element satisfies the predicate. -/
lemma dropWhile_no {p : Char → Bool} : ∀ {l : List Char},
    (∀ c ∈ l, p c = false) → l.dropWhile p = l
  | [], _ => rfl
  | a :: l, h => by
    rw [List.dropWhile_cons, h a (List.mem_cons_self a l)]
    simp

/-- Stripping whitespace from an all-digit character list changes
nothing. -/
lemma pyStripWs_digits {cs : List Char} (h : ∀ c ∈ cs, c ∈ digitChars) :
    pyStripWs cs = cs := by
  have hnw : ∀ c ∈ cs, c.isWhitespace = false :=
    fun c hc => (digitChar_facts (h c hc)).2.1
  unfold pyStripWs
  rw [dropWhile_no hnw, dropWhile_no (fun c hc => hnw c (List.mem_reverse.mp hc)),
    List.reverse_reverse]

/-- Python `int` on a nonempty all-digit character list yields its decimal
value. -/
lemma pyIntCore_digits {cs : List Char} (h1 : cs ≠ [])
    (h2 : ∀ c ∈ cs, c ∈ digitChars) :
    pyIntCore cs = some ((digitsVal cs : Nat) : Int) := by
  unfold pyIntCore
  rw [pyStripWs_digits h2]
  match cs, h1 with
  | c :: rest, _ =>
    have hc := digitChar_facts (h2 c (List.mem_cons_self c rest))
    dsimp only
    rw [if_neg hc.2.2.2.2.1, if_neg hc.2.2.2.2.2]
    have : digitsToNat (c :: rest) = some (digitsVal (c :: rest)) := by
      unfold digitsToNat
      rw [if_pos]
      exact ⟨List.cons_ne_nil c rest,
        List.all_eq_true.mpr fun x hx => (digitChar_facts (h2 x hx)).1⟩
    rw [this]
    rfl

/-- `rstrip("s")` on `<digits> ++ "s"` recovers the digits. -/
lemma rstrip_digits {cs : List Char}
    (h2 : ∀ c ∈ cs, c ∈ digitChars) :
    ((cs ++ ['s']).reverse.dropWhile (· = 's')).reverse = cs := by
  rw [List.reverse_append, List.reverse_singleton, List.singleton_append,
    List.dropWhile_cons]
  simp only [decide_eq_true_eq, eq_self_iff_true, if_true]
  rw [dropWhile_no (fun c hc => ?_), List.reverse_reverse]
  have := (digitChar_facts (h2 c (List.mem_reverse.mp hc))).2.2.1
  simpa using this

/-- Splitting `<token> ++ " " ++ suffix` on whitespace: the accumulated
token comes first when it contains no whitespace. -/
lemma splitWsAux_token (suf : List Char) : ∀ (cs acc : List Char),
    (∀ c ∈ cs, c.isWhitespace = false) → acc.reverse ++ cs ≠ [] →
    splitWsAux (cs ++ ' ' :: suf) acc =
      String.mk (acc.reverse ++ cs) :: splitWsAux suf []
  | [], acc, _, hne => by
    rw [List.nil_append]
    have hacc : acc ≠ [] := by simpa using hne
    rw [List.append_nil]
    show splitWsAux (' ' :: suf) acc = String.mk acc.reverse :: splitWsAux suf []
    rw [splitWsAux, if_pos (by decide : (' ' : Char).isWhitespace = true),
      if_neg hacc]
  | c :: cs, acc, h, _ => by
    rw [List.cons_append]
    show splitWsAux (c :: (cs ++ ' ' :: suf)) acc = _
    rw [splitWsAux, if_neg (by simp [h c (List.mem_cons_self c cs)])]
    rw [splitWsAux_token suf cs (c :: acc)
      (fun x hx => h x (List.mem_cons_of_mem c hx)) (by simp)]
    simp

/-- `replace(",", "")` ignores all-digit tokens. -/
lemma stripCommas_digits {cs : List Char} (h : ∀ c ∈ cs, c ∈ digitChars) :
    cs.filter (· ≠ ',') = cs :=
  List.filter_eq_self.mpr fun c hc => by
    simpa using (digitChar_facts (h c hc)).2.2.2.1

/-- `_to_int_minutes` on `"<digits> <unit-word>"` yields the digit value,
for every whitespace-free unit word (in particular "min" and "mins"). -/
lemma toIntMinutes_digits {cs : List Char} (suf : List Char) (h1 : cs ≠ [])
    (h2 : ∀ c ∈ cs, c ∈ digitChars) :
    toIntMinutes (String.mk (cs ++ ' ' :: suf)) =
      some ((digitsVal cs : Nat) : Int) := by
  unfold toIntMinutes pySplitWs
  show (splitWsAux (cs ++ ' ' :: suf) []).head?.bind
      (fun t => pyInt (stripCommas t)) = _
  rw [splitWsAux_token suf cs []
    (fun c hc => (digitChar_facts (h2 c hc)).2.1) (by simpa using h1)]
  show pyInt (stripCommas (String.mk cs)) = _
  unfold stripCommas pyInt
  show pyIntCore (cs.filter (· ≠ ',')) = _
  rw [stripCommas_digits h2]
  exact pyIntCore_digits h1 h2

/-- C5: `_extract_route_info` is a pure function whose parsers satisfy the
specified shapes: `"<digits>s"` yields the integer seconds (in particular
"1532s" → 1532), `"<digits> min"` and `"<digits> mins"` both yield the
leading integer ("25 min" → 25, "25 mins" → 25), `"12.3 mi"` yields
12.3 (= 123/10) tolerating thousands separators ("1,234.5 mi" → 1234.5),
and `meters` is the raw `distanceMeters` integer taken directly. -/
theorem extract_route_info_parsing (cs : List Char) (h1 : cs ≠ [])
    (h2 : ∀ c ∈ cs, c ∈ digitChars) :
    parseRawSeconds (String.mk (cs ++ ['s'])) = some ((digitsVal cs : Nat) : Int) ∧
    toIntMinutes (String.mk (cs ++ ' ' :: "min".data)) = some ((digitsVal cs : Nat) : Int) ∧
    toIntMinutes (String.mk (cs ++ ' ' :: "mins".data)) = some ((digitsVal cs : Nat) : Int) ∧
    toIntMinutes (String.mk (cs ++ ' ' :: "min".data)) =
      toIntMinutes (String.mk (cs ++ ' ' :: "mins".data)) ∧
    parseRawSeconds "1532s" = some 1532 ∧
    toIntMinutes "25 min" = some 25 ∧
    toIntMinutes "25 mins" = some 25 ∧
    parseMiles "12.3 mi" = some ((123 : Rat) / 10) ∧
    parseMiles "1,234.5 mi" = some ((12345 : Rat) / 10) ∧
    (∀ (r : RawRoute) (m : SampleMetrics), extractRouteInfo r = some m →
      m.meters = r.distanceMeters ∧ m.description = r.description) := by
  have hsec : parseRawSeconds (String.mk (cs ++ ['s'])) =
      some ((digitsVal cs : Nat) : Int) := by
    unfold parseRawSeconds pyRstripS pyInt
    show pyIntCore ((cs ++ ['s']).reverse.dropWhile (· = 's')).reverse = _
    rw [rstrip_digits h2]
    exact pyIntCore_digits h1 h2
  have hmin := toIntMinutes_digits "min".data h1 h2
  have hmins := toIntMinutes_digits "mins".data h1 h2
  have hmi1 : parseMiles "12.3 mi" = some ((123 : Rat) / 10) := by
    have ha : parseMiles "12.3 mi" =
        some (((12 : Nat) : Rat) + ((3 : Nat) : Rat) / (10 : Rat) ^ 1) := rfl
    rw [ha]
    norm_num
  have hmi2 : parseMiles "1,234.5 mi" = some ((12345 : Rat) / 10) := by
    have ha : parseMiles "1,234.5 mi" =
        some (((1234 : Nat) : Rat) + ((5 : Nat) : Rat) / (10 : Rat) ^ 1) := rfl
    rw [ha]
    norm_num
  refine ⟨hsec, hmin, hmins, hmin.trans hmins.symm, by decide, by decide, by decide,
    hmi1, hmi2, ?_⟩
  intro r m h
  unfold extractRouteInfo at h
  cases hm : parseMiles r.milesText <;> rw [hm] at h <;>
    cases hs : parseRawSeconds r.duration <;> rw [hs] at h <;>
      cases hst : toIntMinutes r.staticDurationText <;> rw [hst] at h <;>
        cases hmn : toIntMinutes r.durationText <;> rw [hmn] at h <;>
          simp_all
  exact h ▸ ⟨rfl, rfl⟩

/-- C5 witness: the theorem instantiated at the digit string "1532". -/
theorem extract_route_info_parsing_witness :
    parseRawSeconds (String.mk ("1532".data ++ ['s'])) =
      some ((digitsVal "1532".data : Nat) : Int) :=
  (extract_route_info_parsing "1532".data (by decide) (by decide)).1

/-- An extraction failure on the raw-seconds field makes
`_extract_route_info` fail as a whole. -/
lemma extractRouteInfo_none_of_seconds {r : RawRoute}
    (h : parseRawSeconds r.duration = none) : extractRouteInfo r = none := by
  unfold extractRouteInfo
  rw [h]
  cases parseMiles r.milesText <;>
    cases toIntMinutes r.staticDurationText <;>
      cases toIntMinutes r.durationText <;> rfl

/-- If any route in the list fails to extract, extracting the whole list
fails (Python: the first exception aborts the list comprehension). -/
lemma extractAll_none : ∀ (l : List RawRoute) (r : RawRoute), r ∈ l →
    extractRouteInfo r = none → extractAll l = none
  | a :: t, r, hmem, hnone => by
    rcases List.mem_cons.mp hmem with rfl | ht
    · unfold extractAll
      rw [hnone]
    · have := extractAll_none t r ht hnone
      unfold extractAll
      rw [this]
      cases extractRouteInfo a <;> rfl

/-- C9: the three numeric parsers treat thousands separators
inconsistently: the minutes and miles parsers strip commas from the
leading token ("1,532 min" → 1532, "1,234.5 mi" → 1234.5), but the
raw-seconds parser only strips the trailing "s" and not commas, so
"1,532s" fails to convert; consequently any response containing such a
duration aborts the invocation with a parse failure and writes nothing. -/
theorem seconds_parser_comma_inconsistency :
    parseRawSeconds "1,532s" = none ∧
    toIntMinutes "1,532 min" = some 1532 ∧
    parseMiles "1,234.5 mi" = some ((12345 : Rat) / 10) ∧
    (∀ r : RawRoute, r.duration = "1,532s" → extractRouteInfo r = none) ∧
    (∀ (resp : RoutesResponse) (db : List TTRow) (tsAt : Nat → Int)
      (bid bts o d : String) (failAt : Option Nat),
      resp.ok = true → (∃ r ∈ resp.routes, r.duration = "1,532s") →
      runFetchAndCommit resp db tsAt bid bts o d failAt =
        (some FetchError.parse, db)) := by
  have hbad : parseRawSeconds "1,532s" = none := by decide
  have hext : ∀ r : RawRoute, r.duration = "1,532s" → extractRouteInfo r = none :=
    fun r hr => extractRouteInfo_none_of_seconds (hr ▸ hbad)
  have hmi : parseMiles "1,234.5 mi" = some ((12345 : Rat) / 10) := by
    have ha : parseMiles "1,234.5 mi" =
        some (((1234 : Nat) : Rat) + ((5 : Nat) : Rat) / (10 : Rat) ^ 1) := rfl
    rw [ha]
    norm_num
  refine ⟨hbad, by decide, hmi, hext, ?_⟩
  intro resp db tsAt bid bts o d failAt hok ⟨r, hr, hdur⟩
  have hfd : fetchDirections resp = .error .parse := by
    unfold fetchDirections
    rw [hok, if_neg (by simp), if_neg (List.ne_nil_of_mem hr),
      extractAll_none resp.routes r hr (hext r hdur)]
  unfold runFetchAndCommit
  rw [hfd]

/-- C9 witness: a one-route response whose duration string carries a
thousands separator aborts the pipeline and leaves the table unchanged. -/
theorem seconds_parser_comma_inconsistency_witness :
    runFetchAndCommit
      ⟨true, 200, "resp",
        [⟨"I-95", 16000, "9.9 mi", "1,532s", "18 min", "20 min"⟩]⟩
      [] (fun _ => 0) "b" "t" "HOME" "WORK" none = (some FetchError.parse, []) :=
  seconds_parser_comma_inconsistency.2.2.2.2 _ [] _ "b" "t" "HOME" "WORK" none
    rfl ⟨_, List.mem_singleton_self _, rfl⟩

/-! ### Helper lemmas about the location cache -/

/-- A cache hit returns the stored coordinates, the table untouched, and
makes no provider call. -/
lemma fetchCoords_of_hit (geo : String → GeoResponse) (db : List LocRow)
    (label address : String) (c : Rat × Rat) (h : cacheHit db label = some c) :
    fetchCoords geo db label address = .ok ⟨c, db, 0⟩ := by
  unfold fetchCoords
  rw [h]

/-- After an upsert for `label`, looking `label` up finds exactly the
upserted row. -/
lemma lookupLoc_upsertLoc (label a : String) (la lo : Rat) : ∀ db : List LocRow,
    lookupLoc (upsertLoc db label a la lo) label =
      some ⟨label, a, some la, some lo⟩
  | [] => by
    simp [upsertLoc, lookupLoc]
  | r :: db => by
    have ih := lookupLoc_upsertLoc label a la lo db
    by_cases hr : r.label = label
    · simp only [upsertLoc, List.any_cons, hr, beq_self_eq_true, Bool.true_or,
        if_true, List.map_cons, lookupLoc, List.find?_cons]
    · by_cases hdb : db.any (fun r => r.label == label) = true
      · simp only [upsertLoc, List.any_cons, hdb, Bool.or_true, if_true,
          List.map_cons, lookupLoc, List.find?_cons]
        have hrb : (r.label == label) = false := by simpa using hr
        simp only [hrb, if_neg, ite_false]
        have hthis : lookupLoc (upsertLoc db label a la lo) label =
            some ⟨label, a, some la, some lo⟩ := ih
        simp only [upsertLoc, hdb, if_true, lookupLoc] at hthis
        simpa [hrb] using hthis
      · have hrb : (r.label == label) = false := by simpa using hr
        simp only [upsertLoc, List.any_cons, hrb, hdb, Bool.or_self,
          Bool.false_or, if_false, List.cons_append, lookupLoc, List.find?_cons,
          List.append_eq]
        have hthis : lookupLoc (db ++ [⟨label, a, some la, some lo⟩]) label =
            some ⟨label, a, some la, some lo⟩ := by
          have h2 := ih
          simp only [upsertLoc, hdb, if_false, Bool.false_eq_true] at h2
          simpa using h2
        simp only [lookupLoc] at hthis
        simpa [hrb] using hthis

/-- After an upsert, the upserted label is a cache hit with the upserted
coordinates. -/
lemma cacheHit_upsert (db : List LocRow) (label a : String) (la lo : Rat) :
    cacheHit (upsertLoc db label a la lo) label = some (la, lo) := by
  unfold cacheHit
  rw [lookupLoc_upsertLoc]

/-- Shape of every successful `fetch_coords` call: either a cache hit
(table untouched, zero provider calls) or a cache miss that geocoded
successfully and upserted (one provider call). -/
lemma fetchCoords_ok_cases (geo : String → GeoResponse) (db : List LocRow)
    (label address : String) (out : FetchCoordsOk)
    (h : fetchCoords geo db label address = .ok out) :
    (cacheHit db label = some out.coords ∧ out.db = db ∧ out.providerCalls = 0) ∨
    (cacheHit db label = none ∧ ∃ la lo rest,
      (geo address).httpOk = true ∧ (geo address).status = "OK" ∧
      (geo address).results = (la, lo) :: rest ∧
      out = ⟨(la, lo), upsertLoc db label address la lo, 1⟩) := by
  unfold fetchCoords at h
  cases hch : cacheHit db label with
  | some c =>
    rw [hch] at h
    left
    injection h with h
    subst h
    exact ⟨rfl, rfl, rfl⟩
  | none =>
    rw [hch] at h
    right
    by_cases hok : (geo address).httpOk = false
    · rw [if_pos hok] at h
      exact absurd h (by simp)
    · rw [if_neg hok] at h
      by_cases hst : (geo address).status = "OK"
      · rw [if_pos hst] at h
        cases hres : (geo address).results with
        | nil =>
          rw [hres] at h
          exact absurd h (by simp)
        | cons p rest =>
          obtain ⟨la, lo⟩ := p
          rw [hres] at h
          injection h with h
          subst h
          exact ⟨rfl, la, lo, rest, by simpa using hok, hst, rfl, rfl⟩
      · rw [if_neg hst] at h
        exact absurd h (by simp)

/-- Updating rows in place never changes the label column. -/
lemma locLabels_update (db : List LocRow) (label a : String) (la lo : Rat) :
    locLabels (db.map (fun r =>
      if r.label == label then ⟨r.label, a, some la, some lo⟩ else r)) =
    locLabels db := by
  unfold locLabels
  rw [List.map_map]
  exact List.map_congr_left fun r _ => by by_cases h : r.label = label <;> simp [h]

/-- The upsert preserves label uniqueness. -/
lemma upsertLoc_nodup {db : List LocRow} (label a : String) (la lo : Rat)
    (hnd : (locLabels db).Nodup) :
    (locLabels (upsertLoc db label a la lo)).Nodup := by
  unfold upsertLoc
  by_cases hany : db.any (fun r => r.label == label) = true
  · rw [if_pos hany, locLabels_update]
    exact hnd
  · rw [if_neg hany]
    unfold locLabels
    rw [List.map_append]
    refine List.Nodup.append hnd (by simp) ?_
    simp only [List.map_cons, List.map_nil]
    rw [List.disjoint_singleton]
    intro hmem
    obtain ⟨r, hr, hrl⟩ := List.mem_map.mp hmem
    exact hany (List.any_eq_true.mpr ⟨r, hr, by simp [hrl]⟩)

/-- C3: when a label's stored coordinates are present and non-null,
`fetch_coords` returns them with zero geocoding calls and the table
untouched; consequently a second call for the same label (any address,
any provider behaviour) makes no provider call and returns coordinates
identical to the first call's result. -/
theorem location_cache_hit (geo geo2 : String → GeoResponse) (db : List LocRow)
    (label address address2 : String) (la lo : Rat) :
    (cacheHit db label = some (la, lo) →
      fetchCoords geo db label address = .ok ⟨(la, lo), db, 0⟩) ∧
    (∀ out : FetchCoordsOk, fetchCoords geo db label address = .ok out →
      fetchCoords geo2 out.db label address2 = .ok ⟨out.coords, out.db, 0⟩) := by
  refine ⟨fun h => fetchCoords_of_hit geo db label address _ h, fun out hout => ?_⟩
  rcases fetchCoords_ok_cases geo db label address out hout with
    ⟨hch, hdb, _⟩ | ⟨_, la', lo', rest, _, _, _, hout2⟩
  · exact fetchCoords_of_hit geo2 out.db label address2 _ (hdb ▸ hch)
  · subst hout2
    exact fetchCoords_of_hit geo2 _ label address2 _ (cacheHit_upsert db label address la' lo')

/-- C3 witness: a label cached with non-null coordinates is returned
as-is, with zero provider calls. -/
theorem location_cache_hit_witness :
    fetchCoords (fun _ => ⟨true, "OK", [((5 : Rat), (6 : Rat))]⟩)
      [⟨"HOME", "addr", some 1, some 2⟩] "HOME" "x" =
      .ok ⟨((1 : Rat), (2 : Rat)), [⟨"HOME", "addr", some 1, some 2⟩], 0⟩ :=
  (location_cache_hit _ (fun _ => ⟨true, "OK", [((5 : Rat), (6 : Rat))]⟩)
    [⟨"HOME", "addr", some 1, some 2⟩] "HOME" "x" "x" 1 2).1 (by decide)

/-- C10: once a label has non-null cached coordinates, a resolve call
with ANY address argument succeeds with the whole table unchanged (in
particular the stored address is never overwritten) and performs no
provider call. -/
theorem resolve_frame_on_cached (geo : String → GeoResponse) (db : List LocRow)
    (label : String) (row : LocRow) (h1 : lookupLoc db label = some row)
    (h2 : row.lat ≠ none) (h3 : row.lon ≠ none) (address2 : String) :
    (fetchCoords geo db label address2).map (fun out => out.db) = .ok db ∧
    (fetchCoords geo db label address2).map (fun out => out.providerCalls) = .ok 0 := by
  obtain ⟨la, hla⟩ := Option.ne_none_iff_exists'.mp h2
  obtain ⟨lo, hlo⟩ := Option.ne_none_iff_exists'.mp h3
  have hch : cacheHit db label = some (la, lo) := by
    unfold cacheHit
    rw [h1]
    dsimp only
    rw [hla, hlo]
  rw [fetchCoords_of_hit geo db label address2 _ hch]
  exact ⟨rfl, rfl⟩

/-- C10 witness: resolving a cached label under a different address
leaves the table unchanged. -/
theorem resolve_frame_on_cached_witness :
    ((fetchCoords (fun _ => ⟨true, "OK", [((5 : Rat), (6 : Rat))]⟩)
      [⟨"HOME", "addr", some 1, some 2⟩] "HOME" "other-address").map
        (fun out => out.db) = .ok [⟨"HOME", "addr", some 1, some 2⟩]) ∧
    ((fetchCoords (fun _ => ⟨true, "OK", [((5 : Rat), (6 : Rat))]⟩)
      [⟨"HOME", "addr", some 1, some 2⟩] "HOME" "other-address").map
        (fun out => out.providerCalls) = .ok 0) :=
  resolve_frame_on_cached _ _ "HOME" ⟨"HOME", "addr", some 1, some 2⟩
    (by decide) (by decide) (by decide) "other-address"

/-- C4: the coordinate store keeps at most one entry per label and the
resolution upsert is idempotent: any successful resolution preserves
label-uniqueness (so resolving twice never duplicates), a resolution for
an already-stored label keeps the table size (overwrite, not insert), and
the miss-path upsert leaves the label mapped to the latest address and
coordinates. -/
theorem resolve_upsert_idempotent (geo : String → GeoResponse)
    (db : List LocRow) (label address : String) (out : FetchCoordsOk)
    (hnd : (locLabels db).Nodup)
    (hok : fetchCoords geo db label address = .ok out) :
    (locLabels out.db).Nodup ∧
    (∀ l : String, out.db.countP (fun r => r.label == l) ≤ 1) ∧
    ((∃ row, lookupLoc db label = some row) → out.db.length = db.length) ∧
    (out.providerCalls = 1 →
      lookupLoc out.db label = some ⟨label, address, some out.coords.1, some out.coords.2⟩) := by
  have hcount : (locLabels out.db).Nodup →
      ∀ l : String, out.db.countP (fun r => r.label == l) ≤ 1 := by
    intro hn l
    have := List.nodup_iff_count_le_one.mp hn l
    rwa [locLabels, List.count_eq_countP, List.countP_map] at this
  rcases fetchCoords_ok_cases geo db label address out hok with
    ⟨_, hdb, hcalls⟩ | ⟨_, la, lo, rest, _, _, _, hout⟩
  · refine ⟨hdb ▸ hnd, hcount (hdb ▸ hnd), fun _ => by rw [hdb], fun h1 => ?_⟩
    rw [hcalls] at h1
    exact absurd h1 (by decide)
  · subst hout
    have hnd2 := upsertLoc_nodup label address la lo hnd
    refine ⟨hnd2, hcount hnd2, fun ⟨row, hrow⟩ => ?_, fun _ => lookupLoc_upsertLoc _ _ _ _ db⟩
    show (upsertLoc db label address la lo).length = db.length
    unfold upsertLoc
    rw [if_pos (List.any_eq_true.mpr ⟨row, List.mem_of_find?_eq_some hrow,
      List.find?_some hrow⟩)]
    exact List.length_map db _

/-- C4 witness: re-resolving an existing label (stored without
coordinates) overwrites its row in place: same table size, updated
address and coordinates, labels still unique. -/
theorem resolve_upsert_idempotent_witness :
    (locLabels [(⟨"HOME", "new-addr", some 5, some 6⟩ : LocRow)]).Nodup ∧
    ([(⟨"HOME", "new-addr", some 5, some 6⟩ : LocRow)].length =
      [(⟨"HOME", "old-addr", none, none⟩ : LocRow)].length) ∧
    lookupLoc [(⟨"HOME", "new-addr", some 5, some 6⟩ : LocRow)] "HOME" =
      some ⟨"HOME", "new-addr", some 5, some 6⟩ := by
  have h := resolve_upsert_idempotent (fun _ => ⟨true, "OK", [((5 : Rat), (6 : Rat))]⟩)
    [⟨"HOME", "old-addr", none, none⟩] "HOME" "new-addr"
    ⟨((5 : Rat), (6 : Rat)), [⟨"HOME", "new-addr", some 5, some 6⟩], 1⟩
    (by decide) rfl
  exact ⟨h.1, h.2.2.1 ⟨⟨"HOME", "old-addr", none, none⟩, by decide⟩, h.2.2.2 rfl⟩

/-- C2: with no forced-direction override, `choose_direction` returns
HOME→WORK exactly on [05:30, 10:30], WORK→HOME exactly on [10:40, 18:30]
(both inclusive), and skips at every other time; in particular
f(05:30)=H2W, f(10:30)=H2W, f(10:31)=SKIP, f(10:40)=W2H, f(18:30)=W2H,
f(18:31)=SKIP. -/
theorem chooseDirection_windows (t : Nat) :
    (chooseDirection "" t = some ("HOME", "WORK") ↔
      secondsOfDay 5 30 ≤ t ∧ t ≤ secondsOfDay 10 30) ∧
    (chooseDirection "" t = some ("WORK", "HOME") ↔
      secondsOfDay 10 40 ≤ t ∧ t ≤ secondsOfDay 18 30) ∧
    (chooseDirection "" t = none ↔
      ¬(secondsOfDay 5 30 ≤ t ∧ t ≤ secondsOfDay 10 30) ∧
      ¬(secondsOfDay 10 40 ≤ t ∧ t ≤ secondsOfDay 18 30)) ∧
    chooseDirection "" (secondsOfDay 5 30) = some ("HOME", "WORK") ∧
    chooseDirection "" (secondsOfDay 10 30) = some ("HOME", "WORK") ∧
    chooseDirection "" (secondsOfDay 10 31) = none ∧
    chooseDirection "" (secondsOfDay 10 40) = some ("WORK", "HOME") ∧
    chooseDirection "" (secondsOfDay 18 30) = some ("WORK", "HOME") ∧
    chooseDirection "" (secondsOfDay 18 31) = none := by
  refine ⟨?_, ?_, ?_, by decide, by decide, by decide, by decide, by decide, by decide⟩ <;>
    · rw [chooseDirection, if_neg (by decide : ¬("" : String) = "H2W"),
        if_neg (by decide : ¬("" : String) = "W2H")]
      simp only [inWindow, secondsOfDay, Bool.and_eq_true, decide_eq_true_eq]
      split_ifs with h1 h2 <;> simp_all <;> omega

/-! ### Helper lemmas about the batch write transaction -/

/-- A successful `executemany` appends exactly the given rows. -/
lemma executemanyTT_ok_eq : ∀ (rows db : List TTRow) (i : Nat)
    (failAt : Option Nat) (db2 : List TTRow),
    executemanyTT db rows i failAt = .ok db2 → db2 = db ++ rows
  | [], db, i, failAt, db2 => by
    intro h
    unfold executemanyTT at h
    injection h with h
    simp [h.symm]
  | r :: rs, db, i, failAt, db2 => by
    intro h
    unfold executemanyTT at h
    by_cases hf : failAt = some i
    · rw [if_pos hf] at h
      exact absurd h (by simp)
    · rw [if_neg hf] at h
      have := executemanyTT_ok_eq rs (db ++ [r]) (i + 1) failAt db2 h
      simpa using this

/-- `executemany` with no injected failure succeeds. -/
lemma executemanyTT_none : ∀ (rows db : List TTRow) (i : Nat),
    executemanyTT db rows i none = .ok (db ++ rows)
  | [], db, i => by
    unfold executemanyTT
    simp
  | r :: rs, db, i => by
    unfold executemanyTT
    rw [if_neg (by simp)]
    have := executemanyTT_none rs (db ++ [r]) (i + 1)
    simpa using this

/-- `executemany` raises when the injected failure index lies inside the
row list. -/
lemma executemanyTT_fail : ∀ (rows db : List TTRow) (i k : Nat),
    k < rows.length → executemanyTT db rows i (some (i + k)) = .error ()
  | r :: rs, db, i, 0, _ => by
    unfold executemanyTT
    rw [if_pos (by simp)]
  | r :: rs, db, i, k + 1, hk => by
    unfold executemanyTT
    rw [if_neg (by simp)]
    have := executemanyTT_fail rs (db ++ [r]) (i + 1) k
      (by simpa using Nat.lt_of_succ_lt_succ hk)
    rw [show i + (k + 1) = (i + 1) + k by omega]
    exact this

/-- The committed table on a clean run. -/
lemma commitBatch_none (db rows : List TTRow) :
    commitBatch db rows none = db ++ rows := by
  unfold commitBatch
  rw [executemanyTT_none]

/-- A fresh batch id matches no pre-existing row. -/
lemma readBatch_fresh {db : List TTRow} {bid : String}
    (hfresh : ∀ r ∈ db, r.batch_id ≠ bid) : readBatch db bid = [] :=
  List.filter_eq_nil_iff.mpr fun r hr => by simp [hfresh r hr]

/-- C1: the batch insert is atomic: whatever the failure behaviour, the
table afterwards is either the old table plus ALL the new rows or exactly
the old table; in particular when the write fails after `k` of the rows
(for any `k` short of all of them, e.g. after 1 of 3), nothing is
committed and a subsequent read of that batch id returns zero rows; with
no failure, every row is committed. -/
theorem batch_commit_atomic (db rows : List TTRow) (failAt : Option Nat)
    (bid : String) (hfresh : ∀ r ∈ db, r.batch_id ≠ bid) :
    (commitBatch db rows failAt = db ++ rows ∨ commitBatch db rows failAt = db) ∧
    (∀ k, k < rows.length → commitBatch db rows (some k) = db ∧
      readBatch (commitBatch db rows (some k)) bid = []) ∧
    commitBatch db rows none = db ++ rows := by
  refine ⟨?_, ?_, commitBatch_none db rows⟩
  · unfold commitBatch
    cases hex : executemanyTT db rows 0 failAt with
    | ok db2 => exact Or.inl (executemanyTT_ok_eq rows db 0 failAt db2 hex)
    | error e => exact Or.inr rfl
  · intro k hk
    have hfail : executemanyTT db rows 0 (some k) = .error () := by
      have := executemanyTT_fail rows db 0 k hk
      simpa using this
    have hc : commitBatch db rows (some k) = db := by
      unfold commitBatch
      rw [hfail]
    refine ⟨hc, ?_⟩
    rw [hc]
    exact readBatch_fresh hfresh

/-- C1 witness: with 3 rows and a write failure after 1 insert, the table
is unchanged and reading the batch id back finds zero rows. -/
theorem batch_commit_atomic_witness :
    commitBatch [⟨0, "a", "t0", "H", "W", "d0", 1, 1, 1, 1, 1⟩]
      [⟨1, "b", "t1", "H", "W", "r1", 1, 1, 1, 1, 1⟩,
       ⟨2, "b", "t1", "H", "W", "r2", 1, 1, 1, 1, 1⟩,
       ⟨3, "b", "t1", "H", "W", "r3", 1, 1, 1, 1, 1⟩] (some 1) =
      [⟨0, "a", "t0", "H", "W", "d0", 1, 1, 1, 1, 1⟩] ∧
    readBatch (commitBatch [⟨0, "a", "t0", "H", "W", "d0", 1, 1, 1, 1, 1⟩]
      [⟨1, "b", "t1", "H", "W", "r1", 1, 1, 1, 1, 1⟩,
       ⟨2, "b", "t1", "H", "W", "r2", 1, 1, 1, 1, 1⟩,
       ⟨3, "b", "t1", "H", "W", "r3", 1, 1, 1, 1, 1⟩] (some 1)) "b" = [] :=
  (batch_commit_atomic _ _ (some 1) "b" (by decide)).2.1 1 (by decide)

/-- Every row built by `mkRows` carries the shared batch id, batch
timestamp, origin label and destination label. -/
lemma mem_mkRows : ∀ (ms : List SampleMetrics) (tsAt : Nat → Int) (i : Nat)
    (bid bts o d : String) (r : TTRow), r ∈ mkRows tsAt i bid bts o d ms →
    r.batch_id = bid ∧ r.batch_ts = bts ∧ r.origin_label = o ∧ r.dest_label = d
  | [], _, _, _, _, _, _, r => fun hr => absurd hr (List.not_mem_nil r)
  | m :: ms, tsAt, i, bid, bts, o, d, r => by
    intro hr
    rcases List.mem_cons.mp hr with rfl | ht
    · exact ⟨rfl, rfl, rfl, rfl⟩
    · exact mem_mkRows ms tsAt (i + 1) bid bts o d r ht

/-- C6: batch cohesion: all rows built for one invocation share the one
batch id, batch timestamp and (origin, destination) pair — so any two
records of the batch agree on all four fields — and after a successful
commit onto a table with no prior use of that batch id, reading the batch
id back returns exactly those rows. -/
theorem batch_cohesion (tsAt : Nat → Int) (i : Nat) (bid bts o d : String)
    (ms : List SampleMetrics) (db : List TTRow)
    (hfresh : ∀ r ∈ db, r.batch_id ≠ bid) :
    (∀ r ∈ mkRows tsAt i bid bts o d ms, r.batch_id = bid ∧ r.batch_ts = bts ∧
      r.origin_label = o ∧ r.dest_label = d) ∧
    (∀ r1 ∈ mkRows tsAt i bid bts o d ms, ∀ r2 ∈ mkRows tsAt i bid bts o d ms,
      r1.batch_id = r2.batch_id ∧ r1.batch_ts = r2.batch_ts ∧
      r1.origin_label = r2.origin_label ∧ r1.dest_label = r2.dest_label) ∧
    readBatch (commitBatch db (mkRows tsAt i bid bts o d ms) none) bid =
      mkRows tsAt i bid bts o d ms := by
  refine ⟨fun r hr => mem_mkRows ms tsAt i bid bts o d r hr,
    fun r1 h1 r2 h2 => ?_, ?_⟩
  · obtain ⟨a1, b1, c1, d1⟩ := mem_mkRows ms tsAt i bid bts o d r1 h1
    obtain ⟨a2, b2, c2, d2⟩ := mem_mkRows ms tsAt i bid bts o d r2 h2
    exact ⟨a1.trans a2.symm, b1.trans b2.symm, c1.trans c2.symm, d1.trans d2.symm⟩
  · rw [commitBatch_none]
    unfold readBatch
    rw [List.filter_append,
      show db.filter (fun r => r.batch_id == bid) = [] from readBatch_fresh hfresh,
      List.filter_eq_self.mpr fun r hr => by
        simp [(mem_mkRows ms tsAt i bid bts o d r hr).1],
      List.nil_append]

/-- C6 witness: a two-route batch committed onto a table holding another
batch reads back as exactly its own two rows. -/
theorem batch_cohesion_witness :
    readBatch (commitBatch [⟨0, "a", "t0", "H", "W", "d0", 1, 1, 1, 1, 1⟩]
      (mkRows (fun i => (i : Int)) 0 "b" "t1" "HOME" "WORK"
        [⟨"r1", 1000, 1, 60, 1, 1⟩, ⟨"r2", 2000, 2, 120, 2, 2⟩]) none) "b" =
      mkRows (fun i => (i : Int)) 0 "b" "t1" "HOME" "WORK"
        [⟨"r1", 1000, 1, 60, 1, 1⟩, ⟨"r2", 2000, 2, 120, 2, 2⟩] :=
  (batch_cohesion (fun i => (i : Int)) 0 "b" "t1" "HOME" "WORK"
    [⟨"r1", 1000, 1, 60, 1, 1⟩, ⟨"r2", 2000, 2, 120, 2, 2⟩]
    [⟨0, "a", "t0", "H", "W", "d0", 1, 1, 1, 1, 1⟩] (by decide)).2.2

/-- C7: `fetch_directions` fails with the upstream RuntimeError exactly
when the HTTP request does not succeed or the response contains zero
routes; on HTTP failure the error carries the status code and body, on
zero routes it carries the body; and any `fetch_directions` error aborts
the invocation with the travel-times table unchanged (no batch row
written). -/
theorem fetch_directions_upstream (resp : RoutesResponse) (db : List TTRow)
    (tsAt : Nat → Int) (bid bts o d : String) (failAt : Option Nat) :
    ((∃ s b, fetchDirections resp = .error (.upstream s b)) ↔
      resp.ok = false ∨ resp.routes = []) ∧
    (resp.ok = false →
      fetchDirections resp = .error (.upstream (some resp.statusCode) resp.body)) ∧
    (resp.ok = true → resp.routes = [] →
      fetchDirections resp = .error (.upstream none resp.body)) ∧
    (∀ e, fetchDirections resp = .error e →
      runFetchAndCommit resp db tsAt bid bts o d failAt = (some e, db)) := by
  have h2 : resp.ok = false →
      fetchDirections resp = .error (.upstream (some resp.statusCode) resp.body) := by
    intro h
    unfold fetchDirections
    rw [if_pos h]
  have h3 : resp.ok = true → resp.routes = [] →
      fetchDirections resp = .error (.upstream none resp.body) := by
    intro hok hr
    unfold fetchDirections
    rw [if_neg (by simp [hok]), if_pos hr]
  refine ⟨⟨?_, ?_⟩, h2, h3, ?_⟩
  · rintro ⟨s, b, he⟩
    by_contra hcon
    push_neg at hcon
    obtain ⟨hok, hroutes⟩ := hcon
    have hok : resp.ok = true := by
      revert hok
      cases resp.ok <;> simp
    unfold fetchDirections at he
    rw [if_neg (by simp [hok]), if_neg hroutes] at he
    cases hall : extractAll resp.routes with
    | some ms =>
      rw [hall] at he
      exact absurd he (by simp)
    | none =>
      rw [hall] at he
      injection he with he
      exact FetchError.noConfusion he
  · rintro (hok | hroutes)
    · exact ⟨some resp.statusCode, resp.body, h2 hok⟩
    · cases hok : resp.ok with
      | false => exact ⟨some resp.statusCode, resp.body, h2 hok⟩
      | true => exact ⟨none, resp.body, h3 hok hroutes⟩
  · intro e he
    unfold runFetchAndCommit
    rw [he]

/-- C7 witness: a 403 reply yields the upstream error carrying status and
body, and the table is left unchanged. -/
theorem fetch_directions_upstream_witness :
    fetchDirections ⟨false, 403, "denied", []⟩ =
      .error (.upstream (some 403) "denied") ∧
    runFetchAndCommit ⟨false, 403, "denied", []⟩
      [⟨0, "a", "t0", "H", "W", "d0", 1, 1, 1, 1, 1⟩] (fun _ => 0)
      "b" "t" "HOME" "WORK" none =
      (some (.upstream (some 403) "denied"),
        [⟨0, "a", "t0", "H", "W", "d0", 1, 1, 1, 1, 1⟩]) := by
  have h := fetch_directions_upstream ⟨false, 403, "denied", []⟩
    [⟨0, "a", "t0", "H", "W", "d0", 1, 1, 1, 1, 1⟩] (fun _ => 0)
    "b" "t" "HOME" "WORK" none
  exact ⟨h.2.1 rfl, h.2.2.2 _ (h.2.1 rfl)⟩

/-- C8: the read path returns exactly the stored samples whose
(origin_label, dest_label) match the requested direction and whose
creation time lies within the trailing `days` window, ordered by creation
time ascending; `data_json` optionally restricts further to the
05:00–19:00 local time-of-day sub-window, and a positive `limit` keeps
exactly the most recent `n` rows (a suffix of the ascending list, every
kept row at least as recent as every dropped one), while `limit=0` —
Python `rows[-0:]` — leaves the rows unrestricted. -/
theorem read_path_contract (home work : String) (db : List TTRow)
    (direction : String) (days : Nat) (now : Int) (origin dest : String)
    (cutoff : Int) (fh : Bool) (n : Nat)
    (ho : origin = if direction = "H2W" then home else work)
    (hd : dest = if direction = "H2W" then work else home)
    (hc : cutoff = now - (days : Int) * 86400) :
    (getRows home work db direction days now).Perm
      (db.filter (rowMatches origin dest cutoff)) ∧
    List.Sorted (fun a b : TTRow => a.ts ≤ b.ts)
      (getRows home work db direction days now) ∧
    (dataJson home work db direction days now fh none).Perm
      (db.filter (fun r => rowMatches origin dest cutoff r &&
        (!fh || inDayWindow r))) ∧
    List.Sorted (fun a b : TTRow => a.ts ≤ b.ts)
      (dataJson home work db direction days now fh none) ∧
    dataJson home work db direction days now fh (some n) =
      takeLast n (dataJson home work db direction days now fh none) ∧
    List.IsSuffix (dataJson home work db direction days now fh (some n))
      (dataJson home work db direction days now fh none) ∧
    (n ≠ 0 → (dataJson home work db direction days now fh (some n)).length =
      min n (dataJson home work db direction days now fh none).length) ∧
    (n ≠ 0 → ∀ x ∈ (dataJson home work db direction days now fh none).take
        ((dataJson home work db direction days now fh none).length - n),
      ∀ y ∈ dataJson home work db direction days now fh (some n), x.ts ≤ y.ts) ∧
    (n = 0 → dataJson home work db direction days now fh (some n) =
      dataJson home work db direction days now fh none) := by
  subst ho hd hc
  have hperm1 : (getRows home work db direction days now).Perm
      (db.filter (rowMatches (if direction = "H2W" then home else work)
        (if direction = "H2W" then work else home)
        (now - (days : Int) * 86400))) :=
    List.perm_insertionSort _ _
  have hsort1 : List.Sorted (fun a b : TTRow => a.ts ≤ b.ts)
      (getRows home work db direction days now) :=
    List.sorted_insertionSort _ _
  have hperm3 : (dataJson home work db direction days now fh none).Perm
      (db.filter (fun r => rowMatches (if direction = "H2W" then home else work)
        (if direction = "H2W" then work else home)
        (now - (days : Int) * 86400) r && (!fh || inDayWindow r))) := by
    cases fh with
    | false =>
      have heq : db.filter (fun r =>
          rowMatches (if direction = "H2W" then home else work)
            (if direction = "H2W" then work else home)
            (now - (days : Int) * 86400) r && (!(false : Bool) || inDayWindow r)) =
          db.filter (rowMatches (if direction = "H2W" then home else work)
            (if direction = "H2W" then work else home)
            (now - (days : Int) * 86400)) :=
        List.filter_congr fun r _ => by simp
      show (getRows home work db direction days now).Perm _
      rw [heq]
      exact hperm1
    | true =>
      have h1 : ((getRows home work db direction days now).filter inDayWindow).Perm
          (((db.filter (rowMatches (if direction = "H2W" then home else work)
            (if direction = "H2W" then work else home)
            (now - (days : Int) * 86400))).filter inDayWindow)) :=
        hperm1.filter _
      rw [List.filter_filter] at h1
      have heq : db.filter (fun r =>
          rowMatches (if direction = "H2W" then home else work)
            (if direction = "H2W" then work else home)
            (now - (days : Int) * 86400) r && (!(true : Bool) || inDayWindow r)) =
          db.filter (fun r => inDayWindow r &&
            rowMatches (if direction = "H2W" then home else work)
              (if direction = "H2W" then work else home)
              (now - (days : Int) * 86400) r) :=
        List.filter_congr fun r _ => by simp [Bool.and_comm]
      show ((getRows home work db direction days now).filter inDayWindow).Perm _
      rw [heq]
      exact h1
  have hsort3 : List.Sorted (fun a b : TTRow => a.ts ≤ b.ts)
      (dataJson home work db direction days now fh none) := by
    cases fh with
    | false => exact hsort1
    | true =>
      show List.Sorted _ ((getRows home work db direction days now).filter inDayWindow)
      exact hsort1.filter _
  have hlim : dataJson home work db direction days now fh (some n) =
      takeLast n (dataJson home work db direction days now fh none) := rfl
  refine ⟨hperm1, hsort1, hperm3, hsort3, hlim, ?_, ?_, ?_, ?_⟩
  · rw [hlim]
    unfold takeLast
    by_cases hn : n = 0
    · rw [if_pos hn]
    · rw [if_neg hn]
      exact List.drop_suffix _ _
  · intro hn
    rw [hlim]
    unfold takeLast
    rw [if_neg hn, List.length_drop]
    omega
  · intro hn x hx y hy
    rw [hlim] at hy
    unfold takeLast at hy
    rw [if_neg hn] at hy
    have hpw : (dataJson home work db direction days now fh none).Pairwise
        (fun a b : TTRow => a.ts ≤ b.ts) := hsort3
    have hsplit := List.take_append_drop
      ((dataJson home work db direction days now fh none).length - n)
      (dataJson home work db direction days now fh none)
    have hparts := List.pairwise_append.mp (by rw [hsplit]; exact hpw)
    exact hparts.2.2 x hx y hy
  · intro hn
    rw [hlim]
    unfold takeLast
    rw [if_pos hn]

/-- C8 witness: the contract instantiated on a one-row table for the
home-to-work direction, with the positive limit (n = 1) and the
unrestricting limit (n = 0) both exercised. -/
theorem read_path_contract_witness :
    (getRows "H" "W" [⟨0, "b", "t", "H", "W", "d", 1, 1, 1, 1, 1⟩] "H2W" 14 0).Perm
      ([(⟨0, "b", "t", "H", "W", "d", 1, 1, 1, 1, 1⟩ : TTRow)].filter
        (rowMatches "H" "W" ((0 : Int) - (14 : Int) * 86400))) ∧
    (dataJson "H" "W" [⟨0, "b", "t", "H", "W", "d", 1, 1, 1, 1, 1⟩]
        "H2W" 14 0 true (some 1)).length =
      min 1 (dataJson "H" "W" [⟨0, "b", "t", "H", "W", "d", 1, 1, 1, 1, 1⟩]
        "H2W" 14 0 true none).length ∧
    dataJson "H" "W" [⟨0, "b", "t", "H", "W", "d", 1, 1, 1, 1, 1⟩]
        "H2W" 14 0 true (some 0) =
      dataJson "H" "W" [⟨0, "b", "t", "H", "W", "d", 1, 1, 1, 1, 1⟩]
        "H2W" 14 0 true none :=
  ⟨(read_path_contract "H" "W" [⟨0, "b", "t", "H", "W", "d", 1, 1, 1, 1, 1⟩]
      "H2W" 14 0 "H" "W" ((0 : Int) - (14 : Int) * 86400) true 1
      (by decide) (by decide) rfl).1,
   (read_path_contract "H" "W" [⟨0, "b", "t", "H", "W", "d", 1, 1, 1, 1, 1⟩]
      "H2W" 14 0 "H" "W" ((0 : Int) - (14 : Int) * 86400) true 1
      (by decide) (by decide) rfl).2.2.2.2.2.2.1 (by decide),
   (read_path_contract "H" "W" [⟨0, "b", "t", "H", "W", "d", 1, 1, 1, 1, 1⟩]
      "H2W" 14 0 "H" "W" ((0 : Int) - (14 : Int) * 86400) true 0
      (by decide) (by decide) rfl).2.2.2.2.2.2.2.2 rfl⟩

end Commute
